import Mathlib

/-!
Verification of the annotation-graph traversal and classification layer of
`src/ginza_nlp.py` (class `GiNZANaturalLanguageProcessing`): the parse-tree
arena model, the selector engine, the bounded ancestor walk, the negation
classifier and the category tables.

Modelling conventions (spec section 9, design notes): a Token is identified
with its document-global position (`token.i`), so `head` is stored as an index
into the flattened token sequence of the document and the root self-loop of a
sentence is the index equality `head i = i`.  Python functions that raise are
embedded as `Except String` values whose error is the exception text.
-/

namespace GiNZANLP

/-- A morphologically analysed unit, carrying the fields the verified code
reads from a spaCy token: `token.lemma_`, `token.pos_`, `token.is_stop`, and
the document-global index `token.head.i` of its governing head. -/
structure Token where
  lemma_ : String
  pos_ : String
  is_stop : Bool
  head : Nat
deriving Repr, DecidableEq

/-- A sentence (one element of `doc.sents`): its tokens in surface order. -/
abbrev Sentence := List Token

/-- A parsed document: its sentences in order. -/
abbrev Doc := List Sentence

/-- All tokens of a document in document order — the flattening performed by
every `for sent in ...: for token in sent:` loop of the source. -/
def allTokens (d : Doc) : List Token := d.flatten

/-- `token.head.pos_` for a token of document `d`: the head reference is
resolved in the arena.  The `""` default is never reached on
provider-well-formed documents, where every head index is in range. -/
def headPosOf (d : Doc) (t : Token) : String :=
  (((allTokens d)[t.head]?).map Token.pos_).getD ""

/-- The head-index function of a document: position `i` is sent to the head
index of the token stored there; out-of-range positions are sent to
themselves (unreachable on provider-well-formed documents). -/
def headIdx (d : Doc) (i : Nat) : Nat :=
  (((allTokens d)[i]?).map Token.head).getD i

/-- The while-loop of `get_nth_depth_token_syntaxes` (source lines 415-420):
with `fuel` iterations allowed, append the token at position `cur`; stop if it
is its own head (the root self-loop), otherwise continue from its head.  The
head-index function `h` is an arbitrary function, so malformed head structures
(including cycles with no self-loop) are covered. -/
def headWalk (h : Nat → Nat) (cur : Nat) (fuel : Nat) : List Nat :=
  match fuel with
  | 0 => []
  | Nat.succ f => cur :: (if h cur = cur then [] else headWalk h (h cur) f)

/-- The per-token body of `get_nth_depth_token_syntaxes` (source lines
413-421): `ancestors(token, nth)` starts the walk at `token.head`. -/
def tokenAncestors (h : Nat → Nat) (i : Nat) (nth : Nat) : List Nat :=
  headWalk h (h i) nth

/-- The while-loop of `get_nth_depth_noun_chunk_syntaxes` (source lines
449-456), transcribed separately from the token-level loop so that their
agreement is a theorem rather than a definition. -/
def chunkWalk (h : Nat → Nat) (cur : Nat) (fuel : Nat) : List Nat :=
  match fuel with
  | 0 => []
  | Nat.succ f => cur :: (if h cur = cur then [] else chunkWalk h (h cur) f)

/-- A noun chunk, reduced to the field the walk reads: the document-global
position of `chunk.root`. -/
structure NounChunk where
  root : Nat
deriving Repr, DecidableEq

/-- `get_nth_depth_noun_chunk_syntaxes` (source lines 445-458): each chunk is
mapped to the walk started at `chunk.root.head`. -/
def get_nth_depth_noun_chunk_syntaxes (d : Doc) (chunks : List NounChunk)
    (nth : Nat) : List (NounChunk × List Nat) :=
  chunks.map (fun c => (c, chunkWalk (headIdx d) (headIdx d c.root) nth))

/-- A named entity, reduced to the field the walk was meant to read: the
document-global position of `entity.root`. -/
structure NamedEntity where
  root : Nat
deriving Repr, DecidableEq

/-- `get_nth_depth_named_entity_syntaxes` (source lines 427-440): the first
statement of its per-entity loop is `_entity = entry.root.head`, but the loop
variable is named `entity`, so `entry` is an unbound name and the loop raises
NameError on its first iteration; with no entities the loop body never runs
and the empty mapping is returned. -/
def get_nth_depth_named_entity_syntaxes (ents : List NamedEntity) (nth : Nat) :
    Except String (List (NamedEntity × List Nat)) :=
  match ents with
  | [] => Except.ok []
  | _ :: _ => Except.error "NameError: name entry is not defined"

/-- The exception text raised by `_get_tokens` (source line 160). -/
def nameErrorDoc : String := "NameError: name doc is not defined"

/-- `_get_tokens` (source lines 157-167): after optionally re-parsing `text`,
its loop header is `for sent in doc.sents` where `doc` is an unbound name (no
module-level `doc` exists; every sibling method reads `self.doc`), so every
call raises NameError before any token is appended. -/
def _get_tokens (text : Option String) (d : Doc)
    (symbols : Option (List String)) : Except String (List (Nat × Token)) :=
  Except.error nameErrorDoc

/-- The loop of `_get_tokens` (source lines 159-167) with the slip `doc` read
as `self.doc` — exactly the loop the otherwise-identical `_get_tokens_except`
runs: keep the tokens whose `pos_` is in `symbols` (all tokens when `symbols`
is None), in document order; each token is carried with its document position
(its identity in the arena model). -/
def _get_tokens_fixed (d : Doc) (symbols : Option (List String)) :
    List (Nat × Token) :=
  (allTokens d).enum.filter (fun it =>
    match symbols with
    | none => true
    | some ss => ss.contains it.2.pos_)

/-- `_get_tokens_except` (source lines 210-220): keep the tokens whose `pos_`
is NOT in `symbols` (all tokens when `symbols` is None), in document order;
each token is carried with its document position. -/
def _get_tokens_except (d : Doc) (symbols : Option (List String)) :
    List (Nat × Token) :=
  (allTokens d).enum.filter (fun it =>
    match symbols with
    | none => true
    | some ss => !(ss.contains it.2.pos_))

/-- `get_tokens` (source lines 169-170): `_get_tokens` with `symbols=None`. -/
def get_tokens (text : Option String) (d : Doc) :
    Except String (List (Nat × Token)) :=
  _get_tokens text d none

/-- `get_nth_depth_token_syntaxes` (source lines 409-422) as a whole: collect
the document tokens via `get_tokens` (whose NameError propagates), then map
each token to its bounded ancestor chain. -/
def get_nth_depth_token_syntaxes (text : Option String) (d : Doc) (nth : Nat) :
    Except String (List (Nat × List Nat)) :=
  (get_tokens text d).map (fun toks =>
    toks.map (fun it => (it.1, tokenAncestors (headIdx d) it.1 nth)))

/-- `get_full_depth_token_syntaxes` (source lines 424-425): delegates with
`nth = len(text)`; evaluating `len(text)` raises TypeError when `text` is
None (the call mode in which the Document was supplied earlier). -/
def get_full_depth_token_syntaxes (text : Option String) (d : Doc) :
    Except String (List (Nat × List Nat)) :=
  match text with
  | none => Except.error "TypeError: object of type NoneType has no len()"
  | some s => get_nth_depth_token_syntaxes (some s) d s.length

/-- The twelve if-conditions of `check_negative_sentence` (source lines
470-504), in source order, for one token `t` of document `d`. -/
def negTokenMatch (d : Doc) (t : Token) : Bool :=
  (t.lemma_ == "ない" && t.pos_ == "AUX" && t.is_stop && headPosOf d t == "VERB") ||
  (t.lemma_ == "ない" && t.pos_ == "AUX" && t.is_stop && headPosOf d t == "NOUN") ||
  (t.lemma_ == "ない" && t.pos_ == "AUX" && t.is_stop && headPosOf d t == "ADV") ||
  (t.lemma_ == "ない" && t.pos_ == "ADJ" && t.is_stop && headPosOf d t == "NOUN") ||
  (t.lemma_ == "ない" && t.pos_ == "ADJ" && t.is_stop && headPosOf d t == "VERB") ||
  (t.lemma_ == "ない" && t.pos_ == "ADJ" && t.is_stop && headPosOf d t == "ADJ") ||
  (t.lemma_ == "ない" && t.pos_ == "ADJ" && t.is_stop && headPosOf d t == "ADV") ||
  (t.lemma_ == "ぬ" && t.pos_ == "AUX" && t.is_stop && headPosOf d t == "VERB") ||
  (t.lemma_ == "ず" && t.pos_ == "AUX" && t.is_stop && headPosOf d t == "VERB") ||
  (t.lemma_ == "ず" && t.pos_ == "AUX" && t.is_stop && headPosOf d t == "ADV") ||
  (t.lemma_ == "にくい" && t.pos_ == "AUX" && headPosOf d t == "VERB") ||
  ((t.lemma_ == "なくなる" || t.lemma_ == "無くなる") && t.pos_ == "VERB")

/-- `check_negative_sentence` (source lines 464-506): scan every token of every
sentence in document order, returning True at the first token satisfying one
of the twelve conditions and False when the scan completes with no match. -/
def check_negative_sentence (d : Doc) : Bool :=
  d.any (fun sent => sent.any (fun t => negTokenMatch d t))

/-- One row of the negation rule table of spec section 4.5: the admissible
lemma spellings, the required POS, the optional required head POS, and whether
the token must be a stop word. -/
structure NegRule where
  lemmas : List String
  pos : String
  headPos : Option String
  needStop : Bool
deriving Repr, DecidableEq

/-- Whether token `t` of document `d` satisfies all four fields of rule `r`. -/
def ruleMatches (d : Doc) (t : Token) (r : NegRule) : Bool :=
  r.lemmas.any (fun s => t.lemma_ == s) && t.pos_ == r.pos &&
    (!r.needStop || t.is_stop) &&
    (match r.headPos with
     | none => true
     | some hp => headPosOf d t == hp)

/-- The negation rule table of spec section 4.5, one row per if-condition of
`check_negative_sentence`, in source order. -/
def negRules : List NegRule :=
  [⟨["ない"], "AUX", some "VERB", true⟩,
   ⟨["ない"], "AUX", some "NOUN", true⟩,
   ⟨["ない"], "AUX", some "ADV", true⟩,
   ⟨["ない"], "ADJ", some "NOUN", true⟩,
   ⟨["ない"], "ADJ", some "VERB", true⟩,
   ⟨["ない"], "ADJ", some "ADJ", true⟩,
   ⟨["ない"], "ADJ", some "ADV", true⟩,
   ⟨["ぬ"], "AUX", some "VERB", true⟩,
   ⟨["ず"], "AUX", some "VERB", true⟩,
   ⟨["ず"], "AUX", some "ADV", true⟩,
   ⟨["にくい"], "AUX", some "VERB", false⟩,
   ⟨["なくなる", "無くなる"], "VERB", none, false⟩]

/-- The negation scan with its conditions driven by an explicit rule list, for
stating order-insensitivity. -/
def checkNegativeWithRules (rules : List NegRule) (d : Doc) : Bool :=
  d.any (fun sent => sent.any (fun t => rules.any (fun r => ruleMatches d t r)))

/-- Whether token `t` satisfies the (lemma, POS) fields of rule `r` alone. -/
def lemmaPosMatches (t : Token) (r : NegRule) : Bool :=
  r.lemmas.any (fun s => t.lemma_ == s) && t.pos_ == r.pos

/-- The mutual-exclusivity property asserted by the spec section 4.5
rationale: no single token satisfies the (lemma, POS) fields of two distinct
rules of the table. -/
def rulesMutuallyExclusiveOnLemmaPos : Prop :=
  ∀ t : Token, ∀ r1 ∈ negRules, ∀ r2 ∈ negRules,
    lemmaPosMatches t r1 = true → lemmaPosMatches t r2 = true → r1 = r2

/-- Python `str.upper()` on one character, as the table lookup uses it: ASCII
lower-case letters are shifted to upper case, everything else is unchanged. -/
def pyCharUpper (c : Char) : Char :=
  if 97 ≤ c.toNat ∧ c.toNat ≤ 122 then Char.ofNat (c.toNat - 32) else c

/-- Python `str.lower()` on one character: ASCII upper-case letters are
shifted to lower case, everything else is unchanged. -/
def pyCharLower (c : Char) : Char :=
  if 65 ≤ c.toNat ∧ c.toNat ≤ 90 then Char.ofNat (c.toNat + 32) else c

/-- Python `uid.upper()`. -/
def pyUpper (s : String) : String := String.mk (s.data.map pyCharUpper)

/-- Python `uid.lower()`. -/
def pyLower (s : String) : String := String.mk (s.data.map pyCharLower)

/-- The `uid_to_jp` dictionary of `convert_token_pos_UID_to_jp` (source lines
297-315), as an association list in source order. -/
def pos_uid_to_jp : List (String × String) :=
  [("ADJ", "形容詞"), ("ADP", "接置詞"), ("ADV", "副詞"), ("AUX", "助動詞"),
   ("CCONJ", "接続詞"), ("DET", "限定詞"), ("INTJ", "感嘆符"), ("NOUN", "名詞"),
   ("NUM", "数詞"), ("PART", "助詞"), ("PRON", "固有名詞"), ("PROPN", "代名詞"),
   ("PUNCT", "句読点"), ("SCONJ", "従属接続詞"), ("SYM", "記号"),
   ("VERB", "動詞"), ("X", "その他")]

/-- The `uid_to_jp` dictionary of `convert_token_dep_UID_to_jp` (source lines
319-357), as an association list in source order. -/
def dep_uid_to_jp : List (String × String) :=
  [("acl", "名詞節修飾語"), ("advcl", "副詞節修飾語"), ("advmod", "副詞修飾語"),
   ("amod", "形容詞修飾語"), ("appos", "同格"), ("aux", "助動詞"),
   ("case", "格表現"), ("cc", "等位接続詞"), ("ccomp", "捕文"),
   ("clf", "類別詞"), ("compound", "複合名詞"), ("conj", "結合詞"),
   ("cop", "連結詞"), ("csubj", "主部"), ("dep", "不明な依存関係"),
   ("det", "限定詞"), ("discourse", "談話要素"), ("dislocated", "転置"),
   ("expl", "嘘辞"), ("fixed", "固定複数単語表現"), ("flat", "同格複数単語表現"),
   ("goeswith", "一単語分割表現"), ("iobj", "間接目的語"), ("list", "リスト表現"),
   ("mark", "接続詞"), ("nmod", "名詞修飾語"), ("nsubj", "主語名詞"),
   ("nummod", "数詞修飾語"), ("obj", "目的語"), ("obl", "斜格名詞"),
   ("orphan", "独立関係"), ("parataxis", "並列"), ("punct", "句読点"),
   ("reparandu", "単語として認識されない単語表現"), ("root", "文の根"),
   ("vocation", "発声関係"), ("xcomp", "補体")]

/-- Result of a category-table call: the full mapping (no-argument call), a
display name (successful lookup), or a Python KeyError — a LookupError —
recording the key that was indexed. -/
inductive ConvertResult where
  | mapping (m : List (String × String))
  | name (jp : String)
  | keyError (key : String)
deriving Repr, DecidableEq

/-- `convert_token_pos_UID_to_jp` (source lines 296-316): with no argument
return the whole table, otherwise index the dictionary at `uid.upper()`; a
missing key raises KeyError. -/
def convert_token_pos_UID_to_jp (uid : Option String) : ConvertResult :=
  match uid with
  | none => ConvertResult.mapping pos_uid_to_jp
  | some u =>
    match pos_uid_to_jp.lookup (pyUpper u) with
    | some jp => ConvertResult.name jp
    | none => ConvertResult.keyError (pyUpper u)

/-- `convert_token_dep_UID_to_jp` (source lines 318-358): with no argument
return the whole table, otherwise index the dictionary at `uid.lower()`; a
missing key raises KeyError. -/
def convert_token_dep_UID_to_jp (uid : Option String) : ConvertResult :=
  match uid with
  | none => ConvertResult.mapping dep_uid_to_jp
  | some u =>
    match dep_uid_to_jp.lookup (pyLower u) with
    | some jp => ConvertResult.name jp
    | none => ConvertResult.keyError (pyLower u)

/-- The 3-token scenario sentence of spec section 8: `A -> B -> C(root)` —
token 0 heads token 1, token 1 heads token 2, token 2 heads itself. -/
def chainDoc : Doc :=
  [[⟨"A", "X", false, 1⟩, ⟨"B", "X", false, 2⟩, ⟨"C", "X", false, 2⟩]]

/-- The negation scenario document of spec section 8: a single sentence whose
only AUX token has the negative-auxiliary lemma ない, is a stop word, and is
headed by the VERB at position 1 (which is the self-headed root). -/
def negScenarioDoc : Doc :=
  [[⟨"ない", "AUX", true, 1⟩, ⟨"走る", "VERB", false, 1⟩]]

/-- A malformed document (defensive case of spec section 7): three tokens in
the head cycle 0 -> 1 -> 2 -> 0, with no self-headed root. -/
def cyclicDoc : Doc :=
  [[⟨"a", "X", false, 1⟩, ⟨"b", "X", false, 2⟩, ⟨"c", "X", false, 0⟩]]

/-! ## Ancestor-walk lemmas -/

theorem headWalk_zero (h : Nat → Nat) (cur : Nat) : headWalk h cur 0 = [] := rfl

theorem headWalk_length_le (h : Nat → Nat) (cur fuel : Nat) :
    (headWalk h cur fuel).length ≤ fuel := by
  induction fuel generalizing cur with
  | zero => simp [headWalk]
  | succ f ih =>
    simp only [headWalk]
    split
    · simp
    · simpa using Nat.succ_le_succ (ih (h cur))

theorem headWalk_getElem (h : Nat → Nat) (cur fuel k : Nat)
    (hk : k < (headWalk h cur fuel).length) :
    (headWalk h cur fuel)[k]? = some (h^[k] cur) := by
  induction fuel generalizing cur k with
  | zero => simp [headWalk] at hk
  | succ f ih =>
    simp only [headWalk] at hk ⊢
    cases k with
    | zero => simp
    | succ m =>
      split at hk
      · simp at hk
      · simp only [List.length_cons, Nat.succ_lt_succ_iff] at hk
        rename_i hroot
        simp only [hroot, if_false, List.getElem?_cons_succ]
        rw [ih (h cur) m hk]
        rw [Function.iterate_succ_apply]

theorem headWalk_not_root (h : Nat → Nat) (cur fuel k : Nat)
    (hk : k + 1 < (headWalk h cur fuel).length) :
    h (h^[k] cur) ≠ h^[k] cur := by
  induction fuel generalizing cur k with
  | zero => simp [headWalk] at hk
  | succ f ih =>
    simp only [headWalk] at hk
    split at hk
    · simp at hk
    · rename_i hroot
      simp only [List.length_cons, Nat.succ_lt_succ_iff] at hk
      cases k with
      | zero => simpa using hroot
      | succ m =>
        have := ih (h cur) m (by
          have hlen := headWalk_length_le h (h cur) f
          omega)
        rw [Function.iterate_succ_apply]
        exact ih (h cur) m hk

theorem headWalk_stop (h : Nat → Nat) (cur fuel : Nat) (hf : 0 < fuel) :
    (headWalk h cur fuel).length = fuel ∨
      ∃ l r, headWalk h cur fuel = l ++ [r] ∧ h r = r := by
  induction fuel generalizing cur with
  | zero => omega
  | succ f ih =>
    simp only [headWalk]
    by_cases hroot : h cur = cur
    · right
      exact ⟨[], cur, by simp [hroot], hroot⟩
    · rw [if_neg hroot]
      cases Nat.eq_zero_or_pos f with
      | inl hz => subst hz; left; simp [headWalk]
      | inr hpos =>
        cases ih (h cur) hpos with
        | inl hlen => left; simp [hlen]
        | inr hr =>
          right
          obtain ⟨l, r, heq, hrr⟩ := hr
          exact ⟨cur :: l, r, by simp [heq], hrr⟩

theorem headWalk_count_root (h : Nat → Nat) (cur fuel r : Nat) (hr : h r = r) :
    (headWalk h cur fuel).count r ≤ 1 := by
  induction fuel generalizing cur with
  | zero => simp [headWalk]
  | succ f ih =>
    simp only [headWalk]
    by_cases hroot : h cur = cur
    · simp only [if_pos hroot]
      by_cases hcr : cur = r <;> simp [List.count_cons, hcr]
    · have hcr : cur ≠ r := by
        intro hceq
        subst hceq
        exact hroot hr
      simp only [if_neg hroot, List.count_cons]
      simp [hcr, Ne.symm hcr]
      exact ih (h cur)

/-- C2: for every head structure `h`, token position `i` and bound `n`, the
walk of `get_nth_depth_token_syntaxes` starts from the token's head, appends
the successive iterated heads in order, stops once `n` tokens are appended or
a self-headed root is appended (the root appearing at most once, only as the
final element), yields `[]` when `n = 0`, and on the 3-token chain scenario
`A -> B -> C(root)` gives `ancestors(A,5) = [B, C]` and `ancestors(B,5) = [C]`. -/
theorem tokenAncestors_correct :
    (∀ (h : Nat → Nat) (i : Nat), tokenAncestors h i 0 = []) ∧
    (∀ (h : Nat → Nat) (i n : Nat), (tokenAncestors h i n).length ≤ n) ∧
    (∀ (h : Nat → Nat) (i n k : Nat), k < (tokenAncestors h i n).length →
      (tokenAncestors h i n)[k]? = some (h^[k + 1] i)) ∧
    (∀ (h : Nat → Nat) (i n k : Nat), k + 1 < (tokenAncestors h i n).length →
      h (h^[k + 1] i) ≠ h^[k + 1] i) ∧
    (∀ (h : Nat → Nat) (i n : Nat), 0 < n →
      (tokenAncestors h i n).length = n ∨
        ∃ l r, tokenAncestors h i n = l ++ [r] ∧ h r = r) ∧
    (∀ (h : Nat → Nat) (i n r : Nat), h r = r →
      (tokenAncestors h i n).count r ≤ 1) ∧
    tokenAncestors (headIdx chainDoc) 0 5 = [1, 2] ∧
    tokenAncestors (headIdx chainDoc) 1 5 = [2] := by
  refine ⟨fun h i => rfl, fun h i n => headWalk_length_le h (h i) n,
    fun h i n k hk => ?_, fun h i n k hk => ?_,
    fun h i n hn => headWalk_stop h (h i) n hn,
    fun h i n r hr => headWalk_count_root h (h i) n r hr, by decide, by decide⟩
  · rw [tokenAncestors] at hk ⊢
    rw [headWalk_getElem h (h i) n k hk, Function.iterate_succ_apply]
  · rw [tokenAncestors] at hk
    rw [Function.iterate_succ_apply]
    exact headWalk_not_root h (h i) n k hk

/-- Witness for C2 at concrete inputs: the chain scenario discharges the
bounded-index hypotheses of the element and non-root clauses. -/
theorem tokenAncestors_correct_witness :
    (tokenAncestors (headIdx chainDoc) 0 5)[0]? =
        some ((headIdx chainDoc)^[1] 0) ∧
      headIdx chainDoc ((headIdx chainDoc)^[1] 0) ≠ (headIdx chainDoc)^[1] 0 :=
  ⟨tokenAncestors_correct.2.2.1 (headIdx chainDoc) 0 5 0 (by decide),
   tokenAncestors_correct.2.2.2.1 (headIdx chainDoc) 0 5 0 (by decide)⟩

/-- C7: querying a self-headed root token still performs one step to its head
(itself) and stops: for every `k ≥ 1` the chain is exactly `[root]`,
independent of `k`. -/
theorem tokenAncestors_root (h : Nat → Nat) (i k : Nat)
    (hroot : h i = i) (hk : 1 ≤ k) : tokenAncestors h i k = [i] := by
  rw [tokenAncestors, hroot]
  cases k with
  | zero => omega
  | succ m => simp [headWalk, hroot]

/-- Witness for C7: the root token (position 2) of the chain scenario at
depth 5. -/
theorem tokenAncestors_root_witness :
    tokenAncestors (headIdx chainDoc) 2 5 = [2] :=
  tokenAncestors_root (headIdx chainDoc) 2 5 (by decide) (by decide)

/-- C8: the bounded walk terminates on every input: for any head function —
including the 3-cycle document with no self-headed root — at most `n` tokens
are appended; on the cyclic document the walk runs to exactly its bound. -/
theorem headWalk_bounded :
    (∀ (h : Nat → Nat) (cur n : Nat), (headWalk h cur n).length ≤ n) ∧
    (∀ (i n : Nat), (tokenAncestors (headIdx cyclicDoc) i n).length ≤ n) ∧
    tokenAncestors (headIdx cyclicDoc) 0 7 = [1, 2, 0, 1, 2, 0, 1] :=
  ⟨headWalk_length_le, fun i n => headWalk_length_le _ _ n, by decide⟩

/-! ## Selector engine and full-depth / entity / chunk walks -/

theorem chunkWalk_eq_headWalk (h : Nat → Nat) (cur fuel : Nat) :
    chunkWalk h cur fuel = headWalk h cur fuel := by
  induction fuel generalizing cur with
  | zero => rfl
  | succ f ih =>
    simp only [chunkWalk, headWalk]
    by_cases hroot : h cur = cur
    · simp [hroot]
    · simp [hroot, ih (h cur)]

/-- C4 (code_bug record): the noun-chunk walk computes exactly the token-level
walk entered at `chunk.root.head`; but the named-entity walk, which the spec
says reuses the same algorithm, raises NameError (unbound name `entry`)
whenever at least one entity is present, e.g. already for a single entity at
depth 3. -/
theorem chunk_walk_refines_token_walk :
    (∀ (d : Doc) (chunks : List NounChunk) (nth : Nat),
      get_nth_depth_noun_chunk_syntaxes d chunks nth =
        chunks.map (fun c => (c, tokenAncestors (headIdx d) c.root nth))) ∧
    (∀ (ents : List NamedEntity) (nth : Nat), ents ≠ [] →
      get_nth_depth_named_entity_syntaxes ents nth =
        Except.error "NameError: name entry is not defined") ∧
    get_nth_depth_named_entity_syntaxes [⟨0⟩] 3 =
      Except.error "NameError: name entry is not defined" := by
  refine ⟨fun d chunks nth => ?_, fun ents nth hne => ?_, rfl⟩
  · simp only [get_nth_depth_noun_chunk_syntaxes, tokenAncestors,
      chunkWalk_eq_headWalk]
  · cases ents with
    | nil => exact absurd rfl hne
    | cons e es => rfl

/-- Witness for C4: a single entity triggers the NameError. -/
theorem chunk_walk_refines_token_walk_witness :
    get_nth_depth_named_entity_syntaxes [⟨5⟩] 2 =
      Except.error "NameError: name entry is not defined" :=
  chunk_walk_refines_token_walk.2.1 [⟨5⟩] 2 (by simp)

/-- C3 (code_bug record): `_get_tokens` raises NameError on every call (its
loop reads the unbound name `doc`), so `select_tokens` never succeeds; with
the slip `doc` read as `self.doc` — the loop `_get_tokens_except` actually
runs — the two selectors partition the document tokens exactly: disjoint,
jointly a permutation of all tokens, and each in document order. -/
theorem select_tokens_partition :
    (∀ (text : Option String) (d : Doc) (symbols : Option (List String)),
      _get_tokens text d symbols = Except.error nameErrorDoc) ∧
    (∀ (d : Doc) (ss : List String),
      (∀ x ∈ _get_tokens_fixed d (some ss), x ∉ _get_tokens_except d (some ss)) ∧
      (_get_tokens_fixed d (some ss) ++ _get_tokens_except d (some ss)).Perm
        (allTokens d).enum ∧
      (_get_tokens_fixed d (some ss)).Sublist (allTokens d).enum ∧
      (_get_tokens_except d (some ss)).Sublist (allTokens d).enum) := by
  refine ⟨fun text d symbols => rfl, fun d ss => ⟨fun x hx hx2 => ?_, ?_, ?_, ?_⟩⟩
  · rw [_get_tokens_fixed, List.mem_filter] at hx
    rw [_get_tokens_except, List.mem_filter] at hx2
    simp only at hx hx2
    rw [hx.2] at hx2
    simp at hx2
  · exact List.filter_append_perm _ (allTokens d).enum
  · exact List.filter_sublist _
  · exact List.filter_sublist _

/-- Witness for C3: on the negation scenario document with category set
`{AUX}`, `select_tokens` fails with the NameError while the two corrected
selectors are disjoint on the AUX token at position 0. -/
theorem select_tokens_partition_witness :
    _get_tokens none negScenarioDoc (some ["AUX"]) =
        Except.error nameErrorDoc ∧
      (⟨0, ⟨"ない", "AUX", true, 1⟩⟩ : Nat × Token) ∉
        _get_tokens_except negScenarioDoc (some ["AUX"]) :=
  ⟨select_tokens_partition.1 none negScenarioDoc (some ["AUX"]),
   (select_tokens_partition.2 negScenarioDoc ["AUX"]).1 _ (by decide)⟩

/-- C6 (code_bug record): `get_full_depth_token_syntaxes` never succeeds, in
either call mode: with `text=None` (the Document supplied beforehand) it
raises TypeError evaluating `len(None)`, and with a text it propagates the
NameError that `_get_tokens` raises while collecting the tokens. -/
theorem full_depth_always_fails :
    (∀ d : Doc, get_full_depth_token_syntaxes none d =
      Except.error "TypeError: object of type NoneType has no len()") ∧
    (∀ (s : String) (d : Doc), get_full_depth_token_syntaxes (some s) d =
      Except.error nameErrorDoc) :=
  ⟨fun d => rfl, fun s d => rfl⟩

/-! ## Negation classifier -/

theorem negTokenMatch_eq_rules (d : Doc) (t : Token) :
    negTokenMatch d t = negRules.any (fun r => ruleMatches d t r) := by
  simp only [negTokenMatch, negRules, ruleMatches, List.any_cons, List.any_nil,
    Bool.or_false, Bool.not_true, Bool.false_or, Bool.not_false, Bool.true_or,
    Bool.and_true]
  ac_rfl

theorem headPosOf_append (d1 d2 : Doc) (t : Token) :
    headPosOf (d1 ++ d2) t = headPosOf d1 t ∨ headPosOf d1 t = "" := by
  unfold headPosOf allTokens
  rw [List.flatten_append]
  rcases hlt : (d1.flatten)[t.head]? with _ | tok
  · right
    simp [hlt]
  · left
    have hl : t.head < d1.flatten.length := by
      by_contra hge
      rw [List.getElem?_eq_none (by omega)] at hlt
      cases hlt
    rw [List.getElem?_append_left hl, hlt]

theorem negTokenMatch_congr (d d' : Doc) (t : Token)
    (h : headPosOf d' t = headPosOf d t) :
    negTokenMatch d' t = negTokenMatch d t := by
  simp only [negTokenMatch, h]

theorem negTokenMatch_append (d1 d2 : Doc) (t : Token)
    (h : negTokenMatch d1 t = true) : negTokenMatch (d1 ++ d2) t = true := by
  rcases headPosOf_append d1 d2 t with he | he
  · rw [negTokenMatch_congr d1 (d1 ++ d2) t he]
    exact h
  · have e1 : (("" : String) == "VERB") = false := by decide
    have e2 : (("" : String) == "NOUN") = false := by decide
    have e3 : (("" : String) == "ADV") = false := by decide
    have e4 : (("" : String) == "ADJ") = false := by decide
    simp only [negTokenMatch, he, e1, e2, e3, e4, Bool.and_false,
      Bool.false_or] at h
    simp only [negTokenMatch, h, Bool.or_true]

/-- C1: the classifier is true exactly when some token of some sentence, in
document order, matches one of the twelve rule rows (lemma, POS, required
head POS, with `is_stop` required except for the difficult-to auxiliary row
and the no-longer compound-verb row); it is false on the empty document, a
match in a prefix of the document forces true regardless of what follows
(short-circuit scan), and the single-AUX scenario document yields true. -/
theorem check_negative_sentence_correct :
    (∀ d : Doc, check_negative_sentence d = true ↔
      ∃ sent ∈ d, ∃ t ∈ sent, ∃ r ∈ negRules, ruleMatches d t r = true) ∧
    check_negative_sentence [] = false ∧
    (∀ d1 d2 : Doc, check_negative_sentence d1 = true →
      check_negative_sentence (d1 ++ d2) = true) ∧
    check_negative_sentence negScenarioDoc = true := by
  refine ⟨fun d => ?_, rfl, fun d1 d2 h => ?_, by decide⟩
  · rw [check_negative_sentence]
    simp only [List.any_eq_true, negTokenMatch_eq_rules]
  · rw [check_negative_sentence, List.any_eq_true] at h ⊢
    obtain ⟨sent, hs, hmatch⟩ := h
    rw [List.any_eq_true] at hmatch
    obtain ⟨t, ht, hm⟩ := hmatch
    exact ⟨sent, List.mem_append_left d2 hs,
      List.any_eq_true.mpr ⟨t, ht, negTokenMatch_append d1 d2 t hm⟩⟩

/-- Witness for C1: the scenario document has a matching rule row, and the
match survives appending further sentences. -/
theorem check_negative_sentence_correct_witness :
    (∃ sent ∈ negScenarioDoc, ∃ t ∈ sent, ∃ r ∈ negRules,
        ruleMatches negScenarioDoc t r = true) ∧
      check_negative_sentence (negScenarioDoc ++ chainDoc) = true :=
  ⟨(check_negative_sentence_correct.1 negScenarioDoc).mp (by decide),
   check_negative_sentence_correct.2.2.1 negScenarioDoc chainDoc (by decide)⟩

/-- C5 counterexample: the first two rows of the table both carry
(lemma, POS) = (ない, AUX), so a single negative-auxiliary token satisfies
the (lemma, POS) fields of two distinct rules — the claimed pairwise mutual
exclusivity is false. -/
theorem negRules_not_mutually_exclusive : ¬ rulesMutuallyExclusiveOnLemmaPos := by
  intro hx
  have h := hx ⟨"ない", "AUX", true, 0⟩
      ⟨["ない"], "AUX", some "VERB", true⟩ (by decide)
      ⟨["ない"], "AUX", some "NOUN", true⟩ (by decide)
      (by decide) (by decide)
  exact absurd h (by decide)

/-- C5 (amended): the rules are not mutually exclusive on (lemma, POS), but a
token's match is the disjunction of the twelve rule predicates, so running
`check_negative_sentence` with its rules in any permuted order yields the same
boolean on every document. -/
theorem check_negative_order_insensitive (rules : List NegRule)
    (hp : rules.Perm negRules) (d : Doc) :
    checkNegativeWithRules rules d = check_negative_sentence d := by
  have hany : ∀ t : Token,
      rules.any (fun r => ruleMatches d t r) =
        negRules.any (fun r => ruleMatches d t r) := by
    intro t
    cases h2 : negRules.any (fun r => ruleMatches d t r)
    · cases h1 : rules.any (fun r => ruleMatches d t r)
      · rfl
      · rw [List.any_eq_true] at h1
        obtain ⟨r, hr, hfr⟩ := h1
        rw [List.any_eq_false] at h2
        exact absurd hfr (by simpa using h2 r (hp.mem_iff.mp hr))
    · rw [List.any_eq_true] at h2 ⊢
      obtain ⟨r, hr, hfr⟩ := h2
      exact ⟨r, hp.mem_iff.mpr hr, hfr⟩
  rw [check_negative_sentence, checkNegativeWithRules]
  simp only [negTokenMatch_eq_rules, hany]

/-- Witness for C5: the reversed rule table classifies the scenario document
exactly as the source order does. -/
theorem check_negative_order_insensitive_witness :
    checkNegativeWithRules negRules.reverse negScenarioDoc =
      check_negative_sentence negScenarioDoc :=
  check_negative_order_insensitive negRules.reverse
    (List.reverse_perm negRules) negScenarioDoc

/-! ## Category tables -/

theorem charOfNat_toNat (n : Nat) (h : n.isValidChar) :
    (Char.ofNat n).toNat = n := by
  simp [Char.ofNat, h, Char.ofNatAux, Char.toNat, UInt32.toNat,
    BitVec.toNat_ofNatLt]

theorem pyCharUpper_idem (c : Char) :
    pyCharUpper (pyCharUpper c) = pyCharUpper c := by
  unfold pyCharUpper
  split
  · rename_i h
    have hv : (c.toNat - 32).isValidChar := by
      left
      omega
    rw [if_neg]
    rw [charOfNat_toNat _ hv]
    omega
  · rfl

theorem pyCharLower_idem (c : Char) :
    pyCharLower (pyCharLower c) = pyCharLower c := by
  unfold pyCharLower
  split
  · rename_i h
    have hv : (c.toNat + 32).isValidChar := by
      left
      omega
    rw [if_neg]
    rw [charOfNat_toNat _ hv]
    omega
  · rfl

theorem pyUpper_idem (s : String) : pyUpper (pyUpper s) = pyUpper s := by
  have hf : pyCharUpper ∘ pyCharUpper = pyCharUpper := funext pyCharUpper_idem
  simp [pyUpper, List.map_map, hf]

theorem pyLower_idem (s : String) : pyLower (pyLower s) = pyLower s := by
  have hf : pyCharLower ∘ pyCharLower = pyCharLower := funext pyCharLower_idem
  simp [pyLower, List.map_map, hf]

theorem lookup_none_iff (k : String) (l : List (String × String)) :
    l.lookup k = none ↔ k ∉ l.map Prod.fst := by
  induction l with
  | nil => simp
  | cons p rest ih =>
    rcases p with ⟨a, b⟩
    by_cases hk : k = a
    · subst hk
      simp [List.lookup]
    · have hba : (k == a) = false := by simpa using hk
      simp [List.lookup, hba, hk, ih]

/-- C9: for both category tables, a code whose normalised form is a key of
the closed enumeration is mapped to its fixed display name; a code outside
the enumeration always yields the KeyError (a LookupError), never a default;
and the no-argument call returns the whole mapping. -/
theorem convert_tables_lookup :
    (∀ u jp, pos_uid_to_jp.lookup (pyUpper u) = some jp →
      convert_token_pos_UID_to_jp (some u) = ConvertResult.name jp) ∧
    (∀ u, pyUpper u ∉ pos_uid_to_jp.map Prod.fst →
      convert_token_pos_UID_to_jp (some u) = ConvertResult.keyError (pyUpper u)) ∧
    convert_token_pos_UID_to_jp none = ConvertResult.mapping pos_uid_to_jp ∧
    (∀ u : String, pyUpper u ∈ pos_uid_to_jp.map Prod.fst ↔
      ∃ jp, convert_token_pos_UID_to_jp (some u) = ConvertResult.name jp) ∧
    (∀ u jp, dep_uid_to_jp.lookup (pyLower u) = some jp →
      convert_token_dep_UID_to_jp (some u) = ConvertResult.name jp) ∧
    (∀ u, pyLower u ∉ dep_uid_to_jp.map Prod.fst →
      convert_token_dep_UID_to_jp (some u) = ConvertResult.keyError (pyLower u)) ∧
    convert_token_dep_UID_to_jp none = ConvertResult.mapping dep_uid_to_jp ∧
    (∀ u : String, pyLower u ∈ dep_uid_to_jp.map Prod.fst ↔
      ∃ jp, convert_token_dep_UID_to_jp (some u) = ConvertResult.name jp) := by
  refine ⟨fun u jp h => ?_, fun u h => ?_, rfl, fun u => ?_,
    fun u jp h => ?_, fun u h => ?_, rfl, fun u => ?_⟩
  · rw [convert_token_pos_UID_to_jp, h]
  · rw [convert_token_pos_UID_to_jp, (lookup_none_iff _ _).mpr h]
  · rw [convert_token_pos_UID_to_jp]
    rcases hl : pos_uid_to_jp.lookup (pyUpper u) with _ | jp
    · rw [lookup_none_iff] at hl
      simp [hl]
    · have hmem : pyUpper u ∈ pos_uid_to_jp.map Prod.fst := by
        by_contra hn
        rw [← lookup_none_iff] at hn
        rw [hn] at hl
        cases hl
      simp [hmem]
  · rw [convert_token_dep_UID_to_jp, h]
  · rw [convert_token_dep_UID_to_jp, (lookup_none_iff _ _).mpr h]
  · rw [convert_token_dep_UID_to_jp]
    rcases hl : dep_uid_to_jp.lookup (pyLower u) with _ | jp
    · rw [lookup_none_iff] at hl
      simp [hl]
    · have hmem : pyLower u ∈ dep_uid_to_jp.map Prod.fst := by
        by_contra hn
        rw [← lookup_none_iff] at hn
        rw [hn] at hl
        cases hl
      simp [hmem]

/-- Witness for C9: NOUN maps to its display name, an unknown POS code and an
unknown relation code raise the KeyError, and nsubj maps to its name. -/
theorem convert_tables_lookup_witness :
    convert_token_pos_UID_to_jp (some "NOUN") = ConvertResult.name "名詞" ∧
    convert_token_pos_UID_to_jp (some "XYZ") = ConvertResult.keyError "XYZ" ∧
    convert_token_dep_UID_to_jp (some "nsubj") = ConvertResult.name "主語名詞" ∧
    convert_token_dep_UID_to_jp (some "obj2") = ConvertResult.keyError "obj2" :=
  ⟨convert_tables_lookup.1 "NOUN" "名詞" (by decide),
   convert_tables_lookup.2.1 "XYZ" (by decide),
   convert_tables_lookup.2.2.2.2.1 "nsubj" "主語名詞" (by decide),
   convert_tables_lookup.2.2.2.2.2.1 "obj2" (by decide)⟩

/-- C10: table lookup is case-insensitive — the POS table sees only the
uppercased argument and the relation table only the lowercased argument, so
pre-normalising the argument never changes the result, errors included. -/
theorem convert_tables_case_insensitive (u : String) :
    convert_token_pos_UID_to_jp (some u) =
        convert_token_pos_UID_to_jp (some (pyUpper u)) ∧
      convert_token_dep_UID_to_jp (some u) =
        convert_token_dep_UID_to_jp (some (pyLower u)) := by
  constructor
  · rw [convert_token_pos_UID_to_jp, convert_token_pos_UID_to_jp,
      pyUpper_idem]
  · rw [convert_token_dep_UID_to_jp, convert_token_dep_UID_to_jp,
      pyLower_idem]

end GiNZANLP
